import Mathlib

set_option maxHeartbeats 1000000

/-!
Verification of the italian-inheritance application core.

The definitions below are a shallow embedding of the Python source:
`scan.py` (fact parser) and `app.py` (tool dispatcher, conversation loop
terminal step, context assembler).  Python strings are modelled through
explicit character lists; Python `datetime.now().isoformat()` results are
passed in as an explicit `now : String` argument; the Dropbox persistence
boundary is modelled by mirror fields (`savedReports`, ...) in the
application state, written only when the store client is available.
-/

/-! ### Python string primitives -/

/-- Whitespace recognised by Python `str.strip` and the regex class `\s`
(ASCII subset; the source never feeds non-ASCII whitespace to these). -/
def isPySpace (c : Char) : Bool :=
  c == ' ' || c == '\t' || c == '\n' || c == '\r' || c == '\x0b' || c == '\x0c'

/-- Decimal digits; Python `str.isdigit` and `\d` are modelled on their
ASCII core, which is all the scanned documents use. -/
def isAsciiDigit (c : Char) : Bool := '0' ≤ c && c ≤ '9'

def isAsciiAlpha (c : Char) : Bool := ('A' ≤ c && c ≤ 'Z') || ('a' ≤ c && c ≤ 'z')

/-- Letters matched by the name pattern `[A-Za-zÀ-ÿ]` in `parse_heir_line`. -/
def isNameChar (c : Char) : Bool := isAsciiAlpha c || (0xC0 ≤ c.toNat && c.toNat ≤ 0xFF)

def pyStripL (l : List Char) : List Char :=
  ((l.dropWhile isPySpace).reverse.dropWhile isPySpace).reverse

/-- Python `s.strip()`. -/
def pyStrip (s : String) : String := String.mk (pyStripL s.toList)

/-- Python `s.lower()` (ASCII case folding; every keyword compared against
a lowered string in the source is ASCII). -/
def pyLower (s : String) : String := String.mk (s.toList.map Char.toLower)

/-- Python `s.rstrip(';')`. -/
def pyRstripSemi (s : String) : String :=
  String.mk ((s.toList.reverse.dropWhile (fun c => c == ';')).reverse)

def startsWithChars : List Char → List Char → Bool
  | _, [] => true
  | [], _ :: _ => false
  | c :: cs, n :: ns => c == n && startsWithChars cs ns

def containsChars : List Char → List Char → Bool
  | [], needle => needle.isEmpty
  | c :: cs, needle => startsWithChars (c :: cs) needle || containsChars cs needle

/-- Python substring test `needle in hay`. -/
def pyContains (hay needle : String) : Bool := containsChars hay.toList needle.toList

def splitNLChars : List Char → List (List Char)
  | [] => [[]]
  | c :: cs =>
    if c == '\n' then [] :: splitNLChars cs
    else
      match splitNLChars cs with
      | l :: ls => (c :: l) :: ls
      | [] => [[c]]

/-- Python `text.split('\n')` (keeps empty segments). -/
def pySplitLines (s : String) : List String := (splitNLChars s.toList).map String.mk

/-! ### Fact parser (`scan.py`) -/

structure HeirRecord where
  name : String
  date_of_birth : Option String := none
  marital_status : Option String := none
  marital_status_it : Option String := none
  num_children : Option Nat := none
  raw_text : String := ""
  source_file : String := ""
deriving Repr, DecidableEq

structure AssetRecord where
  description : String
  source_file : String := ""
  raw_text : String := ""
deriving Repr, DecidableEq

structure Document where
  path : String
  folder : String := ""
  filename : String := ""
  text : String := ""
deriving Repr, DecidableEq

def isEnumPunct (c : Char) : Bool := c == '.' || c == ')' || isPySpace c

/-- `re.sub(r'^\d+[\.\)\s]+', '', line)`: the anchored pattern matches iff
the line opens with at least one digit followed by at least one of `.`,
`)` or whitespace; both runs are consumed greedily (the two character
classes are disjoint, so no backtracking case arises). -/
def stripEnumerator (l : List Char) : List Char :=
  let ds := l.takeWhile isAsciiDigit
  let rest := l.dropWhile isAsciiDigit
  if !ds.isEmpty && !(rest.takeWhile isEnumPunct).isEmpty then rest.dropWhile isEnumPunct
  else l

/-- Match `\((\d{2}/\d{2}/\d{4})\)` at the head of the list, returning the
parenthesised group. -/
def dobAt : List Char → Option (List Char)
  | '(' :: d1 :: d2 :: '/' :: m1 :: m2 :: '/' :: y1 :: y2 :: y3 :: y4 :: ')' :: _ =>
    if [d1, d2, m1, m2, y1, y2, y3, y4].all isAsciiDigit then
      some [d1, d2, '/', m1, m2, '/', y1, y2, y3, y4]
    else none
  | _ => none

/-- `re.search` for the date pattern: leftmost match wins. -/
def findDob : List Char → Option (List Char)
  | [] => none
  | c :: cs => dobAt (c :: cs) <|> findDob cs

def digitsToNat (l : List Char) : Nat := l.foldl (fun n c => 10 * n + (c.toNat - '0'.toNat)) 0

/-- Match `(\d+)\s+figli[oa]?` at the head of the list: a maximal digit
run, a nonempty whitespace run, then the literal `figli` (the optional
trailing vowel does not affect the captured group). -/
def childrenAt (l : List Char) : Option Nat :=
  let ds := l.takeWhile isAsciiDigit
  if ds.isEmpty then none
  else
    let r1 := l.dropWhile isAsciiDigit
    if (r1.takeWhile isPySpace).isEmpty then none
    else if startsWithChars (r1.dropWhile isPySpace) ['f', 'i', 'g', 'l', 'i'] then
      some (digitsToNat ds)
    else none

/-- `re.search` for the children pattern: leftmost match wins. -/
def findChildren : List Char → Option Nat
  | [] => none
  | c :: cs => childrenAt (c :: cs) <|> findChildren cs

/-- `parse_heir_line` from `scan.py`. -/
def parse_heir_line (line : String) : Option HeirRecord :=
  let l := pyStripL (stripEnumerator line.toList)
  if l.isEmpty then none
  else
    let low := l.map Char.toLower
    let nameChars := l.takeWhile isNameChar
    if nameChars.isEmpty then none
    else
      some {
        name := String.mk nameChars,
        date_of_birth := (findDob l).map String.mk,
        marital_status :=
          if containsChars low ("coniugat".toList) then some "married"
          else if containsChars low ("stato libero".toList) || containsChars low ("libero".toList) then
            some "unmarried"
          else if containsChars low ("vedov".toList) then some "widowed"
          else none,
        marital_status_it :=
          if containsChars low ("coniugat".toList) then some "coniugato/a"
          else if containsChars low ("stato libero".toList) || containsChars low ("libero".toList) then
            some "stato libero"
          else if containsChars low ("vedov".toList) then some "vedovo/a"
          else none,
        num_children := findChildren l,
        raw_text := String.mk (pyStripL ((l.reverse.dropWhile (fun c => c == ';')).reverse))
      }

/-- True iff the stripped line is nonempty and opens with a digit
(`line and line[0].isdigit()`). -/
def digitStart (s : String) : Bool :=
  match s.toList with
  | [] => false
  | c :: _ => isAsciiDigit c

/-- One iteration of the `parse_heirs` line loop; the state is the
`in_heirs` flag paired with the records gathered so far. -/
def heirsStep (docPath : String) (st : Bool × List HeirRecord) (rawLine : String) :
    Bool × List HeirRecord :=
  let line := pyStrip rawLine
  let low := pyLower line
  if pyContains low "eredi" || pyContains low "heirs" then
    (true, st.2)
  else if st.1 && digitStart line then
    match parse_heir_line line with
    | some h => (st.1, st.2 ++ [{ h with source_file := docPath }])
    | none => st
  else if st.1 && (pyContains low "immobili" || pyContains low "beni" || line == "") then
    if line != "" && pyContains low "immobili" then (false, st.2) else st
  else st

/-- `parse_heirs` from `scan.py`: each document is scanned independently
(the `in_heirs` flag restarts at false per document) and the record lists
are concatenated. -/
def parse_heirs (documents : List Document) : List HeirRecord :=
  documents.foldl
    (fun acc doc => acc ++ ((pySplitLines doc.text).foldl (heirsStep doc.path) (false, [])).2) []

/-- `any(kw in line.lower() for kw in ['immobili', 'beni', 'properties', 'assets'])`. -/
def isAssetMarker (line : String) : Bool :=
  pyContains (pyLower line) "immobili" || pyContains (pyLower line) "beni" ||
  pyContains (pyLower line) "properties" || pyContains (pyLower line) "assets"

/-- One iteration of the `parse_assets` line loop. -/
def assetsStep (docPath : String) (st : Bool × List AssetRecord) (rawLine : String) :
    Bool × List AssetRecord :=
  let line := pyStrip rawLine
  if isAssetMarker line then (true, st.2)
  else if st.1 && line != "" then
    (st.1, st.2 ++ [{ description := pyStrip (pyRstripSemi line),
                      source_file := docPath, raw_text := line }])
  else st

/-- `parse_assets` from `scan.py`. -/
def parse_assets (documents : List Document) : List AssetRecord :=
  documents.foldl
    (fun acc doc => acc ++ ((pySplitLines doc.text).foldl (assetsStep doc.path) (false, [])).2) []

/-- A line that re-enters the in-heirs state (`'eredi' in line.lower() or
'heirs' in line.lower()`). -/
def heirsEnterLine (rawLine : String) : Bool :=
  pyContains (pyLower (pyStrip rawLine)) "eredi" ||
  pyContains (pyLower (pyStrip rawLine)) "heirs"

/-- The exact condition under which a line leaves the in-heirs state:
nonempty after stripping, not a heirs-marker line, not digit-initial, and
containing the keyword `immobili` (the other asset keywords do not exit). -/
def heirsExitLine (rawLine : String) : Bool :=
  !heirsEnterLine rawLine && !digitStart (pyStrip rawLine) &&
  pyStrip rawLine != "" && pyContains (pyLower (pyStrip rawLine)) "immobili"

/-! ### Persisted collections and tool dispatcher (`app.py`) -/

structure ReportSection where
  id : String
  title : String
  content : String
  created_at : String := ""
  updated_at : String := ""
deriving Repr, DecidableEq

structure Note where
  note : String
  added_at : String := ""
deriving Repr, DecidableEq

structure InterviewEntry where
  topic : String
  question : String
  answer : String
  answered_at : String := ""
deriving Repr, DecidableEq

structure ChatMessage where
  role : String
  content : String
deriving Repr, DecidableEq

/-- A JSON-ish tool-parameter value; the tool schemas only ever carry
strings and integers. -/
inductive PValue where
  | str (s : String)
  | int (i : Int)
deriving Repr, DecidableEq

/-- The parameter mapping handed to `handle_tool_call`. -/
abbrev Params := List (String × PValue)

def getStrParam (params : Params) (key : String) : Option String :=
  match params.lookup key with
  | some (PValue.str s) => some s
  | _ => none

def getIntParam (params : Params) (key : String) : Option Int :=
  match params.lookup key with
  | some (PValue.int i) => some i
  | _ => none

/-- The mutable session state of `app.py` together with the persisted
copies held in the document store.  `dbxAvailable` models whether
`get_dropbox_client()` yields a client; `_save` writes the store only in
that case. -/
structure AppState where
  reports : List ReportSection
  notes : List Note
  interview : List InterviewEntry
  messages : List ChatMessage
  dbxAvailable : Bool := true
  savedReports : List ReportSection := []
  savedNotes : List Note := []
  savedInterview : List InterviewEntry := []
  savedMessages : List ChatMessage := []
deriving Repr, DecidableEq

/-- `save_reports` (via `_save`): a full-collection overwrite of the
persisted blob, skipped when the store client is unavailable. -/
def saveReports (s : AppState) : AppState :=
  if s.dbxAvailable then { s with savedReports := s.reports } else s

def saveNotes (s : AppState) : AppState :=
  if s.dbxAvailable then { s with savedNotes := s.notes } else s

def saveInterview (s : AppState) : AppState :=
  if s.dbxAvailable then { s with savedInterview := s.interview } else s

def saveChatHistory (s : AppState) : AppState :=
  if s.dbxAvailable then { s with savedMessages := s.messages } else s

/-- The `for section in reports: if section["id"] == section_id: mutate;
return` loop of the `update_report` branch: the first section whose id
matches is updated in place; `none` when no section matches. -/
def updateReportList (sid title content now : String) :
    List ReportSection → Option (List ReportSection)
  | [] => none
  | sec :: rest =>
    if sec.id == sid then
      some ({ sec with title := title, content := content, updated_at := now } :: rest)
    else
      (updateReportList sid title content now rest).map (fun l => sec :: l)

/-- The two in-place mutations of the `update_interview_entry` branch
(`interview[idx]["answer"] = answer; interview[idx]["answered_at"] =
now`): the entry at the index has its answer replaced and its timestamp
refreshed. -/
def updatedInterviewAt (l : List InterviewEntry) (i : Nat) (answer now : String) :
    List InterviewEntry :=
  let entry := l.getD i { topic := "", question := "", answer := "" }
  l.set i { entry with answer := answer, answered_at := now }

/-- `handle_tool_call` from `app.py`.  The result is `none` exactly when
the Python code would raise (a `KeyError` on a missing parameter or a
`TypeError` on a wrongly-typed one); otherwise it is the result string
paired with the successor state. -/
def handle_tool_call (name : String) (params : Params) (now : String) (s : AppState) :
    Option (String × AppState) :=
  if name == "update_report" then
    match getStrParam params "section_id", getStrParam params "title",
          getStrParam params "content" with
    | some sid, some title, some content =>
      match updateReportList sid title content now s.reports with
      | some rs =>
        some ("Updated report section \x27" ++ title ++ "\x27",
              saveReports { s with reports := rs })
      | none =>
        some ("Created report section \x27" ++ title ++ "\x27",
              saveReports { s with reports := s.reports ++
                [{ id := sid, title := title, content := content,
                   created_at := now, updated_at := now }] })
    | _, _, _ => none
  else if name == "delete_report_section" then
    match getStrParam params "section_id" with
    | some sid =>
      if (s.reports.filter (fun sec => sec.id != sid)).length < s.reports.length then
        some ("Deleted report section \x27" ++ sid ++ "\x27",
              saveReports { s with reports := s.reports.filter (fun sec => sec.id != sid) })
      else some ("Section \x27" ++ sid ++ "\x27 not found", s)
    | none => none
  else if name == "add_note" then
    match getStrParam params "note" with
    | some note =>
      some ("Saved note: \x27" ++ note ++ "\x27",
            saveNotes { s with notes := s.notes ++ [{ note := note, added_at := now }] })
    | none => none
  else if name == "remove_note" then
    match getIntParam params "note_index" with
    | some idx =>
      if 0 ≤ idx ∧ idx < (s.notes.length : Int) then
        some ("Removed note: \x27" ++ (s.notes.getD idx.toNat { note := "" }).note ++ "\x27",
              saveNotes { s with notes := s.notes.eraseIdx idx.toNat })
      else some ("Invalid note index " ++ toString idx, s)
    | none => none
  else if name == "save_interview_entry" then
    match getStrParam params "topic", getStrParam params "question",
          getStrParam params "answer" with
    | some topic, some question, some answer =>
      some ("Saved interview entry under \x27" ++ topic ++ "\x27",
            saveInterview { s with interview := s.interview ++
              [{ topic := topic, question := question, answer := answer,
                 answered_at := now }] })
    | _, _, _ => none
  else if name == "update_interview_entry" then
    match getIntParam params "entry_index" with
    | some idx =>
      if 0 ≤ idx ∧ idx < (s.interview.length : Int) then
        match getStrParam params "answer" with
        | some answer =>
          some ("Updated interview entry " ++ toString idx,
                saveInterview
                  { s with interview := updatedInterviewAt s.interview idx.toNat answer now })
        | none => none
      else some ("Invalid entry index " ++ toString idx, s)
    | none => none
  else
    some ("Unknown tool", s)

/-- The parameters the `update_report` tool receives. -/
def upParams (sid title content : String) : Params :=
  [("section_id", PValue.str sid), ("title", PValue.str title), ("content", PValue.str content)]

/-- Number of sections carrying a given id. -/
def countById (l : List ReportSection) (sid : String) : Nat :=
  (l.filter (fun sec => sec.id == sid)).length

/-- The six catalogued tool names. -/
def isKnownTool (name : String) : Bool :=
  name == "update_report" || name == "delete_report_section" || name == "add_note" ||
  name == "remove_note" || name == "save_interview_entry" || name == "update_interview_entry"

/-- The parameters the named tool extracts unconditionally, present and
with the schema-declared type; for unknown tools nothing is required. -/
def requiredParamsOk (name : String) (params : Params) : Bool :=
  if name == "update_report" then
    (getStrParam params "section_id").isSome && (getStrParam params "title").isSome &&
    (getStrParam params "content").isSome
  else if name == "delete_report_section" then (getStrParam params "section_id").isSome
  else if name == "add_note" then (getStrParam params "note").isSome
  else if name == "remove_note" then (getIntParam params "note_index").isSome
  else if name == "save_interview_entry" then
    (getStrParam params "topic").isSome && (getStrParam params "question").isSome &&
    (getStrParam params "answer").isSome
  else if name == "update_interview_entry" then
    (getIntParam params "entry_index").isSome && (getStrParam params "answer").isSome
  else true

/-! ### Conversation-loop terminal step (`send_to_ai`, `app.py`) -/

/-- A content block of a model response. -/
inductive ContentBlock where
  | text (t : String)
  | toolUse (id : String) (name : String) (input : Params)
deriving Repr, DecidableEq

structure ModelResponse where
  stop_reason : String
  content : List ContentBlock
deriving Repr, DecidableEq

/-- The `reply = ""; for block in response.content: if block.type ==
"text": reply += block.text` accumulation. -/
def extractReplyText (blocks : List ContentBlock) : String :=
  blocks.foldl
    (fun acc b => match b with | ContentBlock.text t => acc ++ t | _ => acc) ""

def textOfBlock : ContentBlock → Option String
  | ContentBlock.text t => some t
  | _ => none

def defaultReply : String := "Done — check the Report panel."

/-- The terminal segment of `send_to_ai`, reached once the model response
no longer asks for tools: extract the reply, fall back to the default on
an empty concatenation, append to chat history and persist it. -/
def finalizeReply (resp : ModelResponse) (s : AppState) : String × AppState :=
  let r := extractReplyText resp.content
  let reply := if r == "" then defaultReply else r
  (reply, saveChatHistory
    { s with messages := s.messages ++ [{ role := "assistant", content := reply }] })

/-! ### Context assembler (`build_context`, `app.py`) -/

/-- The document snapshot built by `load_documents`. -/
structure SnapshotData where
  scan_date : String := ""
  documents : List Document
  heirs : List HeirRecord
  assets : List AssetRecord
deriving Repr, DecidableEq

/-- Python `s.title()` (ASCII approximation: a letter is upper-cased when
it follows a non-letter, lower-cased otherwise). -/
def pyTitleGo : Bool → List Char → List Char
  | _, [] => []
  | prevAlpha, c :: cs =>
    (if isAsciiAlpha c then (if prevAlpha then c.toLower else c.toUpper) else c) ::
      pyTitleGo (isAsciiAlpha c) cs

def pyTitle (s : String) : String := String.mk (pyTitleGo false s.toList)

/-- `TOPIC_LABELS.get(topic, topic.title())`. -/
def topicLabel (t : String) : String :=
  if t == "deceased" then "Deceased"
  else if t == "family" then "Family"
  else if t == "properties" then "Properties"
  else if t == "finances" then "Finances"
  else if t == "legal" then "Legal"
  else if t == "agreements" then "Agreements"
  else if t == "other" then "Other"
  else pyTitle t

/-- Python `s[:10]`. -/
def pyTakeTen (s : String) : String := String.mk (s.toList.take 10)

/-- The fixed instruction lines that open the context (`parts` literal in
`build_context`). -/
def contextIntro : List String :=
  [ "You are an advisor helping an Italian family with inheritance division.",
    "You have access to the following documents and extracted data.",
    "Answer in the same language the user writes in (Italian or English).",
    "When discussing legal matters, note that this is informational only, not legal advice.",
    "",
    "== YOUR TOOLS ==",
    "",
    "REPORTS: You can create/update/delete report sections on the Report panel using",
    "update_report and delete_report_section. Use these when asked to create reports,",
    "summaries, proposals, or any structured output.",
    "",
    "NOTES: When the user corrects information or provides new facts, ALWAYS use add_note",
    "to save it. Notes override document data and persist across sessions.",
    "",
    "INTERVIEW: When conducting an interview, save each answer using save_interview_entry.",
    "If the user corrects a previous interview answer, use update_interview_entry.",
    "Interview data is the DEFINITIVE source of truth — it takes highest priority",
    "over documents and notes when generating reports or answering questions.",
    "",
    "When conducting an interview, ask ONE question at a time. Cover these topics:",
    "- Deceased: name, date of death, place of residence, marital status at death",
    "- Family: complete family tree, spouse(s), all children and their families",
    "- Properties: all real estate, locations, estimated values, ownership details",
    "- Finances: bank accounts, investments, pensions, debts, mortgages",
    "- Legal: existing wills, donations, prior agreements, power of attorney",
    "- Agreements: any informal agreements between heirs, preferences, disputes",
    "Review what has already been answered before asking the next question.",
    "Ask follow-up questions when answers are incomplete or raise new topics.",
    "" ]

/-- Topic keys in order of first appearance: the iteration order of the
`topics` dict built with `setdefault`. -/
def topicKeys (l : List (Nat × InterviewEntry)) : List String :=
  l.foldl (fun acc p => if acc.contains p.2.topic then acc else acc ++ [p.2.topic]) []

/-- The interview block of the context (header, per-topic groups, blank
line), empty when no interview entries exist. -/
def interviewSection (interview : List InterviewEntry) : List String :=
  if interview.isEmpty then []
  else
    let idx := interview.enum
    ("== INTERVIEW DATA (definitive source of truth) ==" ::
      (topicKeys idx).bind (fun t =>
        ("\n--- " ++ topicLabel t ++ " ---") ::
          (idx.filter (fun p => p.2.topic == t)).bind (fun p =>
            ["  [" ++ toString p.1 ++ "] Q: " ++ p.2.question,
             "      A: " ++ p.2.answer]))) ++ [""]

/-- The notes block of the context, empty when no notes exist. -/
def notesSection (notes : List Note) : List String :=
  if notes.isEmpty then []
  else
    ("== CORRECTIONS & NOTES (override document data) ==" ::
      notes.enum.map (fun p =>
        "  " ++ toString p.1 ++ ". " ++ p.2.note ++ " (added " ++ pyTakeTen p.2.added_at ++ ")")) ++
    [""]

def heirContextLine (i : Nat) (h : HeirRecord) : String :=
  let l0 := "  " ++ toString i ++ ". " ++ h.name
  let l1 := match h.date_of_birth with | some d => l0 ++ ", born " ++ d | none => l0
  let l2 := match h.marital_status with | some m => l1 ++ ", " ++ m | none => l1
  match h.num_children with | some n => l2 ++ ", " ++ toString n ++ " children" | none => l2

/-- The structured heirs block, empty when the snapshot has no heirs. -/
def heirsSection (heirs : List HeirRecord) : List String :=
  if heirs.isEmpty then []
  else
    ("== HEIRS (Eredi) — from documents ==" ::
      heirs.enum.map (fun p => heirContextLine (p.1 + 1) p.2)) ++ [""]

/-- The structured assets block, empty when the snapshot has no assets. -/
def assetsSection (assets : List AssetRecord) : List String :=
  if assets.isEmpty then []
  else
    ("== ASSETS (Immobili / Beni) — from documents ==" ::
      assets.enum.map (fun p => "  " ++ toString (p.1 + 1) ++ ". " ++ p.2.description)) ++ [""]

/-- The raw-document block; its header is emitted unconditionally. -/
def documentsSection (docs : List Document) : List String :=
  "== RAW DOCUMENT TEXT ==" ::
    docs.bind (fun d =>
      ["\n--- Document: " ++ d.path ++ " (from folder: " ++ d.folder ++ ") ---", d.text])

/-- The current-report block, empty when no report sections exist. -/
def reportsContextSection (reports : List ReportSection) : List String :=
  if reports.isEmpty then []
  else
    "\n== CURRENT REPORT SECTIONS ==" ::
      reports.bind (fun sec =>
        ["\n--- Section: " ++ sec.title ++ " (id: " ++ sec.id ++ ") ---", sec.content])

/-- The `parts` list assembled by `build_context` before the final join. -/
def buildContextParts (data : SnapshotData) (s : AppState) : List String :=
  contextIntro ++ interviewSection s.interview ++ notesSection s.notes ++
  heirsSection data.heirs ++ assetsSection data.assets ++
  documentsSection data.documents ++ reportsContextSection s.reports

/-- `build_context` from `app.py` (`"\n".join(parts)`). -/
def build_context (data : SnapshotData) (s : AppState) : String :=
  String.intercalate "\n" (buildContextParts data s)

/-! ### Shared lemmas -/

theorem updateReportList_eq_none (sid T C n : String) (l : List ReportSection)
    (h : ∀ sec ∈ l, sec.id ≠ sid) : updateReportList sid T C n l = none := by
  induction l with
  | nil => rfl
  | cons sec rest ih =>
    have hs : ¬ (sec.id == sid) = true := by
      simp only [beq_iff_eq]
      exact h sec (List.mem_cons_self _ _)
    have hrest : ∀ t ∈ rest, t.id ≠ sid := fun t ht => h t (List.mem_cons_of_mem _ ht)
    unfold updateReportList
    rw [if_neg hs, ih hrest]
    rfl

theorem updateReportList_found (sid T C n : String) (pre post : List ReportSection)
    (sec : ReportSection) (hid : sec.id = sid) (hpre : ∀ t ∈ pre, t.id ≠ sid) :
    updateReportList sid T C n (pre ++ sec :: post) =
      some (pre ++ { sec with title := T, content := C, updated_at := n } :: post) := by
  induction pre with
  | nil => simp [updateReportList, hid]
  | cons t ts ih =>
    have ht : ¬ (t.id == sid) = true := by
      simp only [beq_iff_eq]
      exact hpre t (List.mem_cons_self _ _)
    have hts : ∀ u ∈ ts, u.id ≠ sid := fun u hu => hpre u (List.mem_cons_of_mem _ hu)
    show updateReportList sid T C n (t :: (ts ++ sec :: post)) = _
    unfold updateReportList
    rw [if_neg ht, ih hts]
    rfl

theorem updateReportList_some_inv (sid T C n : String) :
    ∀ (l l' : List ReportSection), updateReportList sid T C n l = some l' →
      ∃ pre sec post, l = pre ++ sec :: post ∧ sec.id = sid ∧ (∀ t ∈ pre, t.id ≠ sid) ∧
        l' = pre ++ { sec with title := T, content := C, updated_at := n } :: post := by
  intro l
  induction l with
  | nil => intro l' h; simp [updateReportList] at h
  | cons sec rest ih =>
    intro l' h
    unfold updateReportList at h
    by_cases hs : (sec.id == sid) = true
    · rw [if_pos hs] at h
      refine ⟨[], sec, rest, by simp, by simpa using hs, by simp, ?_⟩
      simpa using h.symm
    · rw [if_neg hs] at h
      obtain ⟨l'', hl'', rfl⟩ := Option.map_eq_some'.mp h
      obtain ⟨pre, sec', post, hdec, hid', hpre, hres⟩ := ih l'' hl''
      refine ⟨sec :: pre, sec', post, by simp [hdec], hid', ?_, by simp [hres]⟩
      intro t ht
      rcases List.mem_cons.mp ht with rfl | ht'
      · simpa using hs
      · exact hpre t ht'

theorem countById_append (l1 l2 : List ReportSection) (sid : String) :
    countById (l1 ++ l2) sid = countById l1 sid + countById l2 sid := by
  simp [countById, List.filter_append]

theorem countById_eq_zero_iff (l : List ReportSection) (sid : String) :
    countById l sid = 0 ↔ ∀ sec ∈ l, sec.id ≠ sid := by
  simp [countById, List.length_eq_zero, List.filter_eq_nil]

theorem countById_cons_self (sec : ReportSection) (l : List ReportSection) (sid : String)
    (h : sec.id = sid) : countById (sec :: l) sid = countById l sid + 1 := by
  simp [countById, List.filter_cons, h, Nat.add_comm]

/-- The `update_report` reduction of `handle_tool_call` at its own
parameter list. -/
theorem handle_update_report_reduce (x T C n : String) (s : AppState) :
    handle_tool_call "update_report" (upParams x T C) n s =
      match updateReportList x T C n s.reports with
      | some rs =>
        some ("Updated report section \x27" ++ T ++ "\x27", saveReports { s with reports := rs })
      | none =>
        some ("Created report section \x27" ++ T ++ "\x27",
              saveReports { s with reports := s.reports ++
                [{ id := x, title := T, content := C, created_at := n, updated_at := n }] }) :=
  rfl

theorem updateReportList_isSome_of_mem (sid T C n : String) (l : List ReportSection)
    (sec : ReportSection) (hm : sec ∈ l) (hid : sec.id = sid) :
    (updateReportList sid T C n l).isSome = true := by
  induction l with
  | nil => cases hm
  | cons t rest ih =>
    unfold updateReportList
    by_cases hts : (t.id == sid) = true
    · rw [if_pos hts]; rfl
    · rw [if_neg hts]
      rcases List.mem_cons.mp hm with rfl | hm'
      · exact absurd (by simpa using hid) hts
      · simpa [Option.isSome_map] using ih hm'

@[simp] theorem saveReports_fields (s : AppState) :
    (saveReports s).reports = s.reports ∧ (saveReports s).notes = s.notes ∧
    (saveReports s).interview = s.interview ∧ (saveReports s).messages = s.messages ∧
    (saveReports s).dbxAvailable = s.dbxAvailable ∧
    (saveReports s).savedNotes = s.savedNotes ∧
    (saveReports s).savedInterview = s.savedInterview ∧
    (saveReports s).savedMessages = s.savedMessages := by
  unfold saveReports; split <;> simp

@[simp] theorem saveNotes_fields (s : AppState) :
    (saveNotes s).reports = s.reports ∧ (saveNotes s).notes = s.notes ∧
    (saveNotes s).interview = s.interview ∧ (saveNotes s).messages = s.messages ∧
    (saveNotes s).dbxAvailable = s.dbxAvailable ∧
    (saveNotes s).savedReports = s.savedReports ∧
    (saveNotes s).savedInterview = s.savedInterview ∧
    (saveNotes s).savedMessages = s.savedMessages := by
  unfold saveNotes; split <;> simp

@[simp] theorem saveInterview_fields (s : AppState) :
    (saveInterview s).reports = s.reports ∧ (saveInterview s).notes = s.notes ∧
    (saveInterview s).interview = s.interview ∧ (saveInterview s).messages = s.messages ∧
    (saveInterview s).dbxAvailable = s.dbxAvailable ∧
    (saveInterview s).savedReports = s.savedReports ∧
    (saveInterview s).savedNotes = s.savedNotes ∧
    (saveInterview s).savedMessages = s.savedMessages := by
  unfold saveInterview; split <;> simp

@[simp] theorem saveChatHistory_fields (s : AppState) :
    (saveChatHistory s).reports = s.reports ∧ (saveChatHistory s).notes = s.notes ∧
    (saveChatHistory s).interview = s.interview ∧ (saveChatHistory s).messages = s.messages ∧
    (saveChatHistory s).dbxAvailable = s.dbxAvailable := by
  unfold saveChatHistory; split <;> simp

theorem saveReports_saved (s : AppState) (h : s.dbxAvailable = true) :
    (saveReports s).savedReports = s.reports := by
  unfold saveReports; rw [if_pos h]

theorem saveNotes_saved (s : AppState) (h : s.dbxAvailable = true) :
    (saveNotes s).savedNotes = s.notes := by
  unfold saveNotes; rw [if_pos h]

theorem saveInterview_saved (s : AppState) (h : s.dbxAvailable = true) :
    (saveInterview s).savedInterview = s.interview := by
  unfold saveInterview; rw [if_pos h]

theorem saveChatHistory_saved (s : AppState) (h : s.dbxAvailable = true) :
    (saveChatHistory s).savedMessages = s.messages := by
  unfold saveChatHistory; rw [if_pos h]

/-- Effect of a single `update_report` call on a collection without
duplicated ids: afterwards exactly one section carries the id, and it
holds the given title, content and timestamp. -/
theorem update_report_call_spec (s : AppState) (x T C n : String)
    (h : countById s.reports x ≤ 1) :
    ∃ r s', handle_tool_call "update_report" (upParams x T C) n s = some (r, s') ∧
      s'.notes = s.notes ∧ s'.interview = s.interview ∧ s'.messages = s.messages ∧
      s'.dbxAvailable = s.dbxAvailable ∧
      countById s'.reports x = 1 ∧
      (∀ sec ∈ s'.reports, sec.id = x →
        sec.title = T ∧ sec.content = C ∧ sec.updated_at = n) := by
  cases hu : updateReportList x T C n s.reports with
  | none =>
    have hz : ∀ sec ∈ s.reports, sec.id ≠ x := by
      intro sec hm hid
      have := updateReportList_isSome_of_mem x T C n s.reports sec hm hid
      rw [hu] at this
      cases this
    refine ⟨_, _, by rw [handle_update_report_reduce, hu], ?_, ?_, ?_, ?_, ?_, ?_⟩
    · exact (saveReports_fields _).2.1
    · exact (saveReports_fields _).2.2.1
    · exact (saveReports_fields _).2.2.2.1
    · exact (saveReports_fields _).2.2.2.2.1
    · rw [(saveReports_fields _).1]
      show countById (s.reports ++ [_]) x = 1
      rw [countById_append, (countById_eq_zero_iff _ _).mpr hz]
      simp [countById]
    · rw [(saveReports_fields _).1]
      intro sec hm hid
      rcases List.mem_append.mp hm with hm' | hm'
      · exact absurd hid (hz sec hm')
      · rcases List.mem_singleton.mp hm' with rfl
        exact ⟨rfl, rfl, rfl⟩
  | some rs =>
    obtain ⟨pre, sec, post, hdec, hid, hpre, hres⟩ :=
      updateReportList_some_inv x T C n s.reports rs hu
    have hpost : ∀ t ∈ post, t.id ≠ x := by
      rw [hdec, countById_append, countById_cons_self sec post x hid] at h
      have : countById post x = 0 := by omega
      exact (countById_eq_zero_iff _ _).mp this
    refine ⟨_, _, by rw [handle_update_report_reduce, hu], ?_, ?_, ?_, ?_, ?_, ?_⟩
    · exact (saveReports_fields _).2.1
    · exact (saveReports_fields _).2.2.1
    · exact (saveReports_fields _).2.2.2.1
    · exact (saveReports_fields _).2.2.2.2.1
    · rw [(saveReports_fields _).1]
      show countById rs x = 1
      rw [hres, countById_append, (countById_eq_zero_iff _ _).mpr hpre,
          countById_cons_self { sec with title := T, content := C, updated_at := n } post x hid,
          (countById_eq_zero_iff _ _).mpr hpost]
    · rw [(saveReports_fields _).1]
      intro t hm htid
      rw [hres] at hm
      rcases List.mem_append.mp hm with hm' | hm'
      · exact absurd htid (hpre t hm')
      · rcases List.mem_cons.mp hm' with rfl | hm''
        · exact ⟨rfl, rfl, rfl⟩
        · exact absurd htid (hpost t hm'')

/-! ### Claim theorems -/

/-- An initial session state: empty collections, store available. -/
def sEmpty : AppState := { reports := [], notes := [], interview := [], messages := [] }

/-- C1 (amended): for every report-section collection in which at most one
section carries id `x`, calling `update_report` twice with `{section_id:
x, title: T, content: C}` leaves exactly one section with id `x`, and it
carries the latest title, content and timestamp; on the first call, if no
section with id `x` existed a new section is appended with fresh
`created_at`/`updated_at`, and if one existed, the first such section has
its title/content replaced and `updated_at` refreshed. -/
theorem update_report_twice_unique (s : AppState) (x T C n1 n2 : String)
    (hdup : countById s.reports x ≤ 1) :
    ∃ r1 s1 r2 s2,
      handle_tool_call "update_report" (upParams x T C) n1 s = some (r1, s1) ∧
      handle_tool_call "update_report" (upParams x T C) n2 s1 = some (r2, s2) ∧
      countById s2.reports x = 1 ∧
      (∀ sec ∈ s2.reports, sec.id = x →
        sec.title = T ∧ sec.content = C ∧ sec.updated_at = n2) ∧
      (countById s.reports x = 0 →
        s1.reports = s.reports ++
          [{ id := x, title := T, content := C, created_at := n1, updated_at := n1 }]) ∧
      (∀ pre sec post, s.reports = pre ++ sec :: post → sec.id = x →
        (∀ t ∈ pre, t.id ≠ x) →
        s1.reports = pre ++ { sec with title := T, content := C, updated_at := n1 } :: post) := by
  obtain ⟨r1, s1, h1, _, _, _, _, hc1, _⟩ := update_report_call_spec s x T C n1 hdup
  obtain ⟨r2, s2, h2, _, _, _, _, hc2, hall2⟩ :=
    update_report_call_spec s1 x T C n2 (le_of_eq hc1)
  refine ⟨r1, s1, r2, s2, h1, h2, hc2, hall2, ?_, ?_⟩
  · intro h0
    have hz := (countById_eq_zero_iff _ _).mp h0
    have hnone := updateReportList_eq_none x T C n1 s.reports hz
    rw [handle_update_report_reduce, hnone] at h1
    have hs1 : s1 = saveReports { s with reports := s.reports ++
        [{ id := x, title := T, content := C, created_at := n1, updated_at := n1 }] } :=
      (congrArg Prod.snd (Option.some.inj h1)).symm
    rw [hs1, (saveReports_fields _).1]
  · intro pre sec post hdec hid hpre
    have hcall : handle_tool_call "update_report" (upParams x T C) n1 s =
        some ("Updated report section \x27" ++ T ++ "\x27",
          saveReports { s with reports :=
            pre ++ { sec with title := T, content := C, updated_at := n1 } :: post }) := by
      rw [handle_update_report_reduce, hdec,
          updateReportList_found x T C n1 pre post sec hid hpre]
    rw [hcall] at h1
    have hs1 : s1 = saveReports { s with reports :=
        pre ++ { sec with title := T, content := C, updated_at := n1 } :: post } :=
      (congrArg Prod.snd (Option.some.inj h1)).symm
    rw [hs1, (saveReports_fields _).1]

/-- Witness for the amended C1 theorem at an initially empty collection. -/
theorem update_report_twice_unique_witness :
    ∃ r1 s1 r2 s2,
      handle_tool_call "update_report" (upParams "x" "T" "C") "t1" sEmpty = some (r1, s1) ∧
      handle_tool_call "update_report" (upParams "x" "T" "C") "t2" s1 = some (r2, s2) ∧
      countById s2.reports "x" = 1 ∧
      (∀ sec ∈ s2.reports, sec.id = "x" →
        sec.title = "T" ∧ sec.content = "C" ∧ sec.updated_at = "t2") ∧
      (countById sEmpty.reports "x" = 0 →
        s1.reports = sEmpty.reports ++
          [{ id := "x", title := "T", content := "C", created_at := "t1", updated_at := "t1" }]) ∧
      (∀ pre sec post, sEmpty.reports = pre ++ sec :: post → sec.id = "x" →
        (∀ t ∈ pre, t.id ≠ "x") →
        s1.reports = pre ++ { sec with title := "T", content := "C", updated_at := "t1" } :: post) :=
  update_report_twice_unique sEmpty "x" "T" "C" "t1" "t2" (by decide)

/-- A collection that already holds two sections with the same id `x`. -/
def sDupReports : AppState :=
  { reports := [{ id := "x", title := "A", content := "a" },
                { id := "x", title := "B", content := "b" }],
    notes := [], interview := [], messages := [] }

/-- Counterexample to C1 as stated: starting from a collection already
holding two sections with id `x`, two successive `update_report` calls
leave two sections with id `x`, not exactly one. -/
theorem update_report_twice_dup_cex :
    ((handle_tool_call "update_report" (upParams "x" "T" "C") "t1" sDupReports).bind
      (fun p => handle_tool_call "update_report" (upParams "x" "T" "C") "t2" p.2)).map
      (fun p => countById p.2.reports "x") = some 2 := by decide

/-- C10: when `update_report` hits an existing id, exactly the first
matching section is rewritten in place — its id, `created_at` and list
position survive, only title, content and `updated_at` change — and every
other section (later duplicates included) is untouched; nothing is
appended. -/
theorem update_report_first_match_frame (s : AppState) (pre post : List ReportSection)
    (sec : ReportSection) (x T C n : String)
    (hdec : s.reports = pre ++ sec :: post) (hid : sec.id = x)
    (hpre : ∀ t ∈ pre, t.id ≠ x) :
    handle_tool_call "update_report" (upParams x T C) n s =
      some ("Updated report section \x27" ++ T ++ "\x27",
        saveReports { s with reports :=
          pre ++ { sec with title := T, content := C, updated_at := n } :: post }) := by
  rw [handle_update_report_reduce, hdec,
      updateReportList_found x T C n pre post sec hid hpre]

/-- Witness for C10: the first of two duplicated sections is rewritten,
the later duplicate survives byte-for-byte. -/
theorem update_report_first_match_frame_witness :
    handle_tool_call "update_report" (upParams "x" "T" "C") "t9" sDupReports =
      some ("Updated report section \x27T\x27",
        saveReports { sDupReports with reports :=
          [{ id := "x", title := "T", content := "C", created_at := "", updated_at := "t9" },
           { id := "x", title := "B", content := "b" }] }) :=
  update_report_first_match_frame sDupReports []
    [{ id := "x", title := "B", content := "b" }]
    { id := "x", title := "A", content := "a" } "x" "T" "C" "t9" rfl rfl (by decide)

/-- C9: `remove_note` with an index outside `[0, len(notes))` returns the
invalid-index result string and leaves the whole state — the notes list
and its persisted copy included — unchanged. -/
theorem remove_note_invalid_index (s : AppState) (now : String) (idx : Int)
    (h : ¬ (0 ≤ idx ∧ idx < (s.notes.length : Int))) :
    handle_tool_call "remove_note" [("note_index", PValue.int idx)] now s =
      some ("Invalid note index " ++ toString idx, s) := by
  have hred : handle_tool_call "remove_note" [("note_index", PValue.int idx)] now s =
      if 0 ≤ idx ∧ idx < (s.notes.length : Int) then
        some ("Removed note: \x27" ++ (s.notes.getD idx.toNat { note := "" }).note ++ "\x27",
              saveNotes { s with notes := s.notes.eraseIdx idx.toNat })
      else some ("Invalid note index " ++ toString idx, s) := rfl
  rw [hred, if_neg h]

/-- A state holding exactly two notes. -/
def sTwoNotes : AppState :=
  { reports := [], notes := [{ note := "a" }, { note := "b" }], interview := [], messages := [] }

/-- Witness for C9: index 5 on a 2-element notes list. -/
theorem remove_note_invalid_index_witness :
    handle_tool_call "remove_note" [("note_index", PValue.int 5)] "t" sTwoNotes =
      some ("Invalid note index 5", sTwoNotes) :=
  remove_note_invalid_index sTwoNotes "t" 5 (by decide)

/-- The end-to-end scenario document of the spec. -/
def mariaDoc : Document :=
  { path := "d.txt",
    text := "Eredi:\n1. Maria (12/03/1975), coniugata, 2 figli;\nImmobili:\nApartment in Rome" }

/-- C5: that document parses to exactly one heir record — Maria, born
12/03/1975, married, two children — and exactly one asset record with
description "Apartment in Rome". -/
theorem scenario_maria_parse :
    parse_heirs [mariaDoc] =
      [{ name := "Maria", date_of_birth := some "12/03/1975",
         marital_status := some "married", marital_status_it := some "coniugato/a",
         num_children := some 2, raw_text := "Maria (12/03/1975), coniugata, 2 figli",
         source_file := "d.txt" }] ∧
    parse_assets [mariaDoc] =
      [{ description := "Apartment in Rome", source_file := "d.txt",
         raw_text := "Apartment in Rome" }] := by
  decide

/-- A document whose heirs section is followed by a `Beni:` marker line
and then a numbered heir-style line. -/
def beniDoc : Document :=
  { path := "d.txt", text := "Eredi:\nBeni:\n1. Anna (01/01/1970), 1 figlio;" }

/-- Counterexample to C6 as stated: a line containing the asset-marker
keyword `beni` does not exit the in-heirs state — the digit line after it
is still parsed as an heir. -/
theorem heirs_beni_no_exit_cex : parse_heirs [beniDoc] ≠ [] := by
  decide

/-- A document whose in-assets section holds a non-empty line that itself
contains the marker keyword `beni`. -/
def beniAssetDoc : Document :=
  { path := "d.txt", text := "Immobili:\nBeni di famiglia: casa;" }

/-- Counterexample to C7 as stated: while in-assets, a non-empty line that
itself contains a marker keyword (`beni`) is consumed as a marker and
yields no AssetRecord. -/
theorem assets_marker_line_no_record_cex : parse_assets [beniAssetDoc] = [] := by
  decide

/-- Counterexample to C8 as stated: a parameter mapping missing a required
key makes the dispatcher raise (`KeyError`), modelled as `none`. -/
theorem dispatcher_missing_param_cex :
    handle_tool_call "update_report" [] "t" sEmpty = none := by rfl

theorem digitStart_empty : digitStart "" = false := rfl

/-- C6 (amended): from the in-heirs state, one scanned line exits the
state exactly when `heirsExitLine` holds — the stripped line is nonempty,
contains neither heirs-marker (`eredi`/`heirs`), does not start with a
digit, and contains the keyword `immobili`; in particular an empty line
never exits (`heirsExitLine "" = false`) and a digit-initial line — also
one following an empty line — is parsed as an heir line. -/
theorem heirs_exit_characterization (docPath : String) (recs : List HeirRecord)
    (rawLine : String) :
    heirsStep docPath (true, recs) rawLine =
      (!heirsExitLine rawLine,
       if heirsEnterLine rawLine = false ∧ digitStart (pyStrip rawLine) = true then
         recs ++ (match parse_heir_line (pyStrip rawLine) with
                  | some h => [{ h with source_file := docPath }]
                  | none => [])
       else recs) := by
  rcases hp : parse_heir_line (pyStrip rawLine) with _ | h <;>
  by_cases h1 : pyContains (pyLower (pyStrip rawLine)) "eredi" = true <;>
  by_cases h2 : pyContains (pyLower (pyStrip rawLine)) "heirs" = true <;>
  by_cases h3 : digitStart (pyStrip rawLine) = true <;>
  by_cases h4 : pyContains (pyLower (pyStrip rawLine)) "immobili" = true <;>
  by_cases h5 : pyContains (pyLower (pyStrip rawLine)) "beni" = true <;>
  by_cases h6 : pyStrip rawLine = "" <;>
  simp_all [heirsStep, heirsExitLine, heirsEnterLine, digitStart_empty]

theorem assetsStep_flag (docPath : String) (b : Bool) (recs : List AssetRecord)
    (rawLine : String) :
    (assetsStep docPath (b, recs) rawLine).1 = (b || isAssetMarker (pyStrip rawLine)) := by
  by_cases h1 : isAssetMarker (pyStrip rawLine) = true <;>
  cases b <;>
  by_cases h2 : pyStrip rawLine = "" <;>
  simp_all [assetsStep]

theorem assetsStep_records (docPath : String) (b : Bool) (recs : List AssetRecord)
    (rawLine : String) :
    (assetsStep docPath (b, recs) rawLine).2 =
      if isAssetMarker (pyStrip rawLine) = false ∧ b = true ∧ pyStrip rawLine ≠ "" then
        recs ++ [{ description := pyStrip (pyRstripSemi (pyStrip rawLine)),
                   source_file := docPath, raw_text := pyStrip rawLine }]
      else recs := by
  by_cases h1 : isAssetMarker (pyStrip rawLine) = true <;>
  cases b <;>
  by_cases h2 : pyStrip rawLine = "" <;>
  simp_all [assetsStep]

theorem assets_state_never_exits (docPath : String) :
    ∀ (lines : List String) (recs : List AssetRecord),
      (lines.foldl (assetsStep docPath) (true, recs)).1 = true := by
  intro lines
  induction lines with
  | nil => intro recs; rfl
  | cons l rest ih =>
    intro recs
    show (rest.foldl (assetsStep docPath) (assetsStep docPath (true, recs) l)).1 = true
    have hpair : assetsStep docPath (true, recs) l =
        (true, (assetsStep docPath (true, recs) l).2) := by
      refine Prod.ext ?_ rfl
      rw [assetsStep_flag]
      rfl
    rw [hpair]
    exact ih _

/-- C7 (amended): the in-assets state is entered by any line containing
one of the four marker keywords and never exits afterwards; while in the
state, a non-empty line becomes exactly one AssetRecord — its description
the line with trailing semicolons and whitespace trimmed — unless the line
itself contains a marker keyword, in which case it is consumed as a
marker and yields no record. -/
theorem assets_step_characterization (docPath : String) (b : Bool)
    (recs : List AssetRecord) (rawLine : String) :
    ((assetsStep docPath (b, recs) rawLine).1 = (b || isAssetMarker (pyStrip rawLine))) ∧
    ((assetsStep docPath (b, recs) rawLine).2 =
      if isAssetMarker (pyStrip rawLine) = false ∧ b = true ∧ pyStrip rawLine ≠ "" then
        recs ++ [{ description := pyStrip (pyRstripSemi (pyStrip rawLine)),
                   source_file := docPath, raw_text := pyStrip rawLine }]
      else recs) ∧
    (∀ (lines : List String) (recs' : List AssetRecord),
      (lines.foldl (assetsStep docPath) (true, recs')).1 = true) :=
  ⟨assetsStep_flag docPath b recs rawLine, assetsStep_records docPath b recs rawLine,
   assets_state_never_exits docPath⟩

/-- The spec-side description of the reply: the concatenation, in order,
of all plain-text segments of the response. -/
def specTextConcat : List ContentBlock → String
  | [] => ""
  | ContentBlock.text t :: rest => t ++ specTextConcat rest
  | _ :: rest => specTextConcat rest

theorem extractReplyText_go (blocks : List ContentBlock) :
    ∀ acc : String,
      blocks.foldl
        (fun acc b => match b with | ContentBlock.text t => acc ++ t | _ => acc) acc =
      acc ++ specTextConcat blocks := by
  induction blocks with
  | nil => intro acc; simp [specTextConcat]
  | cons b rest ih =>
    intro acc
    cases b with
    | text t => simp [specTextConcat, List.foldl_cons, ih (acc ++ t), String.append_assoc]
    | toolUse i n inp => simp [specTextConcat, List.foldl_cons, ih acc]

theorem extractReplyText_eq (blocks : List ContentBlock) :
    extractReplyText blocks = specTextConcat blocks := by
  have h := extractReplyText_go blocks ""
  simpa [extractReplyText] using h

theorem specTextConcat_of_no_text (blocks : List ContentBlock)
    (h : ∀ b ∈ blocks, textOfBlock b = none) : specTextConcat blocks = "" := by
  induction blocks with
  | nil => rfl
  | cons b rest ih =>
    cases b with
    | text t => exact absurd (h _ (List.mem_cons_self _ _)) (by simp [textOfBlock])
    | toolUse i n inp =>
      exact ih (fun b hb => h b (List.mem_cons_of_mem _ hb))

/-- C3: when the model stops without requesting tools, the returned reply
is the in-order concatenation of the response's plain-text segments — the
fixed default string when the response carried no text (tool calls only) —
and that reply is appended to chat history with role `assistant`, the chat
history being persisted before the return. -/
theorem terminal_reply_spec (resp : ModelResponse) (s : AppState)
    (hstop : resp.stop_reason ≠ "tool_use") (hdbx : s.dbxAvailable = true) :
    (finalizeReply resp s).1 =
      (if specTextConcat resp.content = "" then defaultReply else specTextConcat resp.content) ∧
    ((∀ b ∈ resp.content, textOfBlock b = none) →
      (finalizeReply resp s).1 = defaultReply) ∧
    (finalizeReply resp s).2.messages =
      s.messages ++ [{ role := "assistant", content := (finalizeReply resp s).1 }] ∧
    (finalizeReply resp s).2.savedMessages = (finalizeReply resp s).2.messages := by
  have hr : (finalizeReply resp s).1 =
      (if specTextConcat resp.content = "" then defaultReply else specTextConcat resp.content) := by
    show (if (extractReplyText resp.content == "") = true then defaultReply
          else extractReplyText resp.content) = _
    rw [extractReplyText_eq]
    by_cases h : specTextConcat resp.content = "" <;> simp [h]
  refine ⟨hr, ?_, ?_, ?_⟩
  · intro hnone
    rw [hr, specTextConcat_of_no_text resp.content hnone]
    simp
  · show (saveChatHistory _).messages = _
    rw [(saveChatHistory_fields _).2.2.2.1]
    rfl
  · have h2 : (finalizeReply resp s).2 = saveChatHistory
        { s with messages := s.messages ++
            [{ role := "assistant", content := (finalizeReply resp s).1 }] } := rfl
    rw [h2, saveChatHistory_saved
          { s with messages := s.messages ++
              [{ role := "assistant", content := (finalizeReply resp s).1 }] } hdbx,
        (saveChatHistory_fields _).2.2.2.1]

/-- A model response that carries one text block and one tool call. -/
def respWitness : ModelResponse :=
  { stop_reason := "end_turn",
    content := [ContentBlock.text "Hello", ContentBlock.toolUse "t1" "add_note" []] }

/-- Witness for C3 at a concrete terminal response. -/
theorem terminal_reply_spec_witness :
    (finalizeReply respWitness sEmpty).1 =
      (if specTextConcat respWitness.content = "" then defaultReply
       else specTextConcat respWitness.content) ∧
    ((∀ b ∈ respWitness.content, textOfBlock b = none) →
      (finalizeReply respWitness sEmpty).1 = defaultReply) ∧
    (finalizeReply respWitness sEmpty).2.messages =
      sEmpty.messages ++
        [{ role := "assistant", content := (finalizeReply respWitness sEmpty).1 }] ∧
    (finalizeReply respWitness sEmpty).2.savedMessages =
      (finalizeReply respWitness sEmpty).2.messages :=
  terminal_reply_spec respWitness sEmpty (by decide) rfl

/-- C4: with non-empty interview, notes and document data, the assembled
context lists the interview header strictly before the notes header,
which comes strictly before the raw-document header; the final string is
the newline-join of that parts list, and `build_context` is a pure
function (determinism and absence of side effects hold by construction of
the embedding). -/
theorem context_priority_order (data : SnapshotData) (s : AppState)
    (hiv : s.interview ≠ []) (hn : s.notes ≠ []) (hd : data.documents ≠ []) :
    (∃ l1 l2 l3 l4, buildContextParts data s =
      l1 ++ "== INTERVIEW DATA (definitive source of truth) ==" ::
      (l2 ++ "== CORRECTIONS & NOTES (override document data) ==" ::
      (l3 ++ "== RAW DOCUMENT TEXT ==" :: l4))) ∧
    build_context data s = String.intercalate "\n" (buildContextParts data s) := by
  constructor
  · have hiv' : s.interview.isEmpty = false := by
      cases h : s.interview with
      | nil => exact absurd h hiv
      | cons a l => rfl
    have hn' : s.notes.isEmpty = false := by
      cases h : s.notes with
      | nil => exact absurd h hn
      | cons a l => rfl
    refine ⟨contextIntro,
      ((topicKeys s.interview.enum).bind (fun t =>
        ("\n--- " ++ topicLabel t ++ " ---") ::
          (s.interview.enum.filter (fun p => p.2.topic == t)).bind (fun p =>
            ["  [" ++ toString p.1 ++ "] Q: " ++ p.2.question,
             "      A: " ++ p.2.answer]))) ++ [""],
      (s.notes.enum.map (fun p =>
        "  " ++ toString p.1 ++ ". " ++ p.2.note ++ " (added " ++
          pyTakeTen p.2.added_at ++ ")")) ++ [""] ++
        heirsSection data.heirs ++ assetsSection data.assets,
      (data.documents.bind (fun d =>
        ["\n--- Document: " ++ d.path ++ " (from folder: " ++ d.folder ++ ") ---",
         d.text])) ++ reportsContextSection s.reports, ?_⟩
    unfold buildContextParts interviewSection notesSection documentsSection
    rw [hiv', hn']
    simp [List.append_assoc]
  · rfl

/-- A one-document snapshot for the C4 witness. -/
def snapWitness : SnapshotData :=
  { documents := [{ path := "doc.txt", folder := "root", text := "Eredi:" }],
    heirs := [], assets := [] }

/-- A session state with one interview entry and one note. -/
def sInterviewNotes : AppState :=
  { reports := [],
    notes := [{ note := "n1", added_at := "2024-01-01T00:00:00" }],
    interview := [{ topic := "family", question := "Q", answer := "A" }],
    messages := [] }

/-- Witness for C4 at concrete non-empty inputs. -/
theorem context_priority_order_witness :
    (∃ l1 l2 l3 l4, buildContextParts snapWitness sInterviewNotes =
      l1 ++ "== INTERVIEW DATA (definitive source of truth) ==" ::
      (l2 ++ "== CORRECTIONS & NOTES (override document data) ==" ::
      (l3 ++ "== RAW DOCUMENT TEXT ==" :: l4))) ∧
    build_context snapWitness sInterviewNotes =
      String.intercalate "\n" (buildContextParts snapWitness sInterviewNotes) :=
  context_priority_order snapWitness sInterviewNotes
    (by decide) (by decide) (by decide)

/-- C2: whenever the dispatcher returns (without raising) and the store
client is available, any collection it changed has been durable-saved as a
full-collection overwrite before the return — the in-memory list and its
persisted copy agree for every collection the call mutated. -/
theorem dispatcher_saves_affected (name : String) (params : Params) (now : String)
    (s : AppState) (r : String) (s' : AppState)
    (hdbx : s.dbxAvailable = true)
    (h : handle_tool_call name params now s = some (r, s')) :
    (s'.reports ≠ s.reports → s'.savedReports = s'.reports) ∧
    (s'.notes ≠ s.notes → s'.savedNotes = s'.notes) ∧
    (s'.interview ≠ s.interview → s'.savedInterview = s'.interview) ∧
    (s'.messages = s.messages) := by
  unfold handle_tool_call at h
  repeat' split at h
  all_goals simp only [Option.some.injEq, Prod.mk.injEq, reduceCtorEq] at h
  all_goals obtain ⟨hr, hs'⟩ := h
  all_goals subst hs'
  all_goals refine ⟨?_, ?_, ?_, ?_⟩
  all_goals
    simp_all [saveReports, saveNotes, saveInterview]

/-- State after `add_note` of "hi" at time t0 from the empty state. -/
def sNoted : AppState :=
  { reports := [], notes := [{ note := "hi", added_at := "t0" }], interview := [],
    messages := [], savedNotes := [{ note := "hi", added_at := "t0" }] }

/-- Witness for C2 at a concrete successful `add_note` call. -/
theorem dispatcher_saves_affected_witness :
    (sNoted.reports ≠ sEmpty.reports → sNoted.savedReports = sNoted.reports) ∧
    (sNoted.notes ≠ sEmpty.notes → sNoted.savedNotes = sNoted.notes) ∧
    (sNoted.interview ≠ sEmpty.interview → sNoted.savedInterview = sNoted.interview) ∧
    (sNoted.messages = sEmpty.messages) :=
  dispatcher_saves_affected "add_note" [("note", PValue.str "hi")] "t0" sEmpty
    ("Saved note: \x27hi\x27") sNoted rfl rfl

/-! Per-tool reduction equations of the dispatcher at literal tool names. -/

theorem handle_update_report_at (params : Params) (now : String) (s : AppState) :
    handle_tool_call "update_report" params now s =
      match getStrParam params "section_id", getStrParam params "title",
            getStrParam params "content" with
      | some sid, some title, some content =>
        match updateReportList sid title content now s.reports with
        | some rs =>
          some ("Updated report section \x27" ++ title ++ "\x27",
                saveReports { s with reports := rs })
        | none =>
          some ("Created report section \x27" ++ title ++ "\x27",
                saveReports { s with reports := s.reports ++
                  [{ id := sid, title := title, content := content,
                     created_at := now, updated_at := now }] })
      | _, _, _ => none := rfl

theorem handle_delete_section_at (params : Params) (now : String) (s : AppState) :
    handle_tool_call "delete_report_section" params now s =
      match getStrParam params "section_id" with
      | some sid =>
        if (s.reports.filter (fun sec => sec.id != sid)).length < s.reports.length then
          some ("Deleted report section \x27" ++ sid ++ "\x27",
                saveReports { s with reports := s.reports.filter (fun sec => sec.id != sid) })
        else some ("Section \x27" ++ sid ++ "\x27 not found", s)
      | none => none := rfl

theorem handle_add_note_at (params : Params) (now : String) (s : AppState) :
    handle_tool_call "add_note" params now s =
      match getStrParam params "note" with
      | some note =>
        some ("Saved note: \x27" ++ note ++ "\x27",
              saveNotes { s with notes := s.notes ++ [{ note := note, added_at := now }] })
      | none => none := rfl

theorem handle_remove_note_at (params : Params) (now : String) (s : AppState) :
    handle_tool_call "remove_note" params now s =
      match getIntParam params "note_index" with
      | some idx =>
        if 0 ≤ idx ∧ idx < (s.notes.length : Int) then
          some ("Removed note: \x27" ++ (s.notes.getD idx.toNat { note := "" }).note ++ "\x27",
                saveNotes { s with notes := s.notes.eraseIdx idx.toNat })
        else some ("Invalid note index " ++ toString idx, s)
      | none => none := rfl

theorem handle_save_interview_at (params : Params) (now : String) (s : AppState) :
    handle_tool_call "save_interview_entry" params now s =
      match getStrParam params "topic", getStrParam params "question",
            getStrParam params "answer" with
      | some topic, some question, some answer =>
        some ("Saved interview entry under \x27" ++ topic ++ "\x27",
              saveInterview { s with interview := s.interview ++
                [{ topic := topic, question := question, answer := answer,
                   answered_at := now }] })
      | _, _, _ => none := rfl

theorem handle_update_interview_at (params : Params) (now : String) (s : AppState) :
    handle_tool_call "update_interview_entry" params now s =
      match getIntParam params "entry_index" with
      | some idx =>
        if 0 ≤ idx ∧ idx < (s.interview.length : Int) then
          match getStrParam params "answer" with
          | some answer =>
            some ("Updated interview entry " ++ toString idx,
                  saveInterview
                    { s with interview := updatedInterviewAt s.interview idx.toNat answer now })
          | none => none
        else some ("Invalid entry index " ++ toString idx, s)
      | none => none := rfl

theorem handle_unknown_tool (name : String) (params : Params) (now : String) (s : AppState)
    (h1 : name ≠ "update_report") (h2 : name ≠ "delete_report_section")
    (h3 : name ≠ "add_note") (h4 : name ≠ "remove_note")
    (h5 : name ≠ "save_interview_entry") (h6 : name ≠ "update_interview_entry") :
    handle_tool_call name params now s = some ("Unknown tool", s) := by
  unfold handle_tool_call
  rw [if_neg (by simpa using h1), if_neg (by simpa using h2), if_neg (by simpa using h3),
      if_neg (by simpa using h4), if_neg (by simpa using h5), if_neg (by simpa using h6)]

/-- C8 (amended): for every tool name and every parameter mapping that
supplies the parameters the named tool reads unconditionally (with their
schema types), the dispatcher returns a result string and never raises;
an unknown tool name yields "Unknown tool" and out-of-range indices yield
the descriptive invalid-index result strings, the state left untouched. -/
theorem dispatcher_never_raises_amended (name : String) (params : Params) (now : String)
    (s : AppState) (hreq : requiredParamsOk name params = true) :
    (∃ r s', handle_tool_call name params now s = some (r, s')) ∧
    (isKnownTool name = false → handle_tool_call name params now s = some ("Unknown tool", s)) ∧
    (∀ idx : Int, name = "remove_note" → getIntParam params "note_index" = some idx →
      ¬ (0 ≤ idx ∧ idx < (s.notes.length : Int)) →
      handle_tool_call name params now s = some ("Invalid note index " ++ toString idx, s)) ∧
    (∀ idx : Int, name = "update_interview_entry" →
      getIntParam params "entry_index" = some idx →
      ¬ (0 ≤ idx ∧ idx < (s.interview.length : Int)) →
      handle_tool_call name params now s =
        some ("Invalid entry index " ++ toString idx, s)) := by
  refine ⟨?_, ?_, ?_, ?_⟩
  · by_cases h1 : name = "update_report"
    · subst h1
      have hreq' : ((getStrParam params "section_id").isSome &&
          (getStrParam params "title").isSome &&
          (getStrParam params "content").isSome) = true := hreq
      simp only [Bool.and_eq_true, Option.isSome_iff_exists] at hreq'
      obtain ⟨⟨⟨sid, hsid⟩, title, htitle⟩, content, hcontent⟩ := hreq'
      rw [handle_update_report_at]
      simp only [hsid, htitle, hcontent]
      cases hu : updateReportList sid title content now s.reports <;>
        simp only [hu] <;> exact ⟨_, _, rfl⟩
    by_cases h2 : name = "delete_report_section"
    · subst h2
      have hreq' : (getStrParam params "section_id").isSome = true := hreq
      obtain ⟨sid, hsid⟩ := Option.isSome_iff_exists.mp hreq'
      rw [handle_delete_section_at]
      simp only [hsid]
      by_cases hlt :
          (s.reports.filter (fun sec => sec.id != sid)).length < s.reports.length
      · rw [if_pos hlt]; exact ⟨_, _, rfl⟩
      · rw [if_neg hlt]; exact ⟨_, _, rfl⟩
    by_cases h3 : name = "add_note"
    · subst h3
      have hreq' : (getStrParam params "note").isSome = true := hreq
      obtain ⟨note, hnote⟩ := Option.isSome_iff_exists.mp hreq'
      rw [handle_add_note_at]
      simp only [hnote]
      exact ⟨_, _, rfl⟩
    by_cases h4 : name = "remove_note"
    · subst h4
      have hreq' : (getIntParam params "note_index").isSome = true := hreq
      obtain ⟨idx, hidx⟩ := Option.isSome_iff_exists.mp hreq'
      rw [handle_remove_note_at]
      simp only [hidx]
      by_cases hb : 0 ≤ idx ∧ idx < (s.notes.length : Int)
      · rw [if_pos hb]; exact ⟨_, _, rfl⟩
      · rw [if_neg hb]; exact ⟨_, _, rfl⟩
    by_cases h5 : name = "save_interview_entry"
    · subst h5
      have hreq' : ((getStrParam params "topic").isSome &&
          (getStrParam params "question").isSome &&
          (getStrParam params "answer").isSome) = true := hreq
      simp only [Bool.and_eq_true, Option.isSome_iff_exists] at hreq'
      obtain ⟨⟨⟨topic, htopic⟩, question, hquestion⟩, answer, hanswer⟩ := hreq'
      rw [handle_save_interview_at]
      simp only [htopic, hquestion, hanswer]
      exact ⟨_, _, rfl⟩
    by_cases h6 : name = "update_interview_entry"
    · subst h6
      have hreq' : ((getIntParam params "entry_index").isSome &&
          (getStrParam params "answer").isSome) = true := hreq
      simp only [Bool.and_eq_true, Option.isSome_iff_exists] at hreq'
      obtain ⟨⟨idx, hidx⟩, answer, hanswer⟩ := hreq'
      rw [handle_update_interview_at]
      simp only [hidx]
      by_cases hb : 0 ≤ idx ∧ idx < (s.interview.length : Int)
      · rw [if_pos hb]
        simp only [hanswer]
        exact ⟨_, _, rfl⟩
      · rw [if_neg hb]; exact ⟨_, _, rfl⟩
    · exact ⟨_, _, handle_unknown_tool name params now s h1 h2 h3 h4 h5 h6⟩
  · intro hunk
    simp only [isKnownTool, Bool.or_eq_false_iff, beq_eq_false_iff_ne] at hunk
    obtain ⟨⟨⟨⟨⟨n1, n2⟩, n3⟩, n4⟩, n5⟩, n6⟩ := hunk
    exact handle_unknown_tool name params now s n1 n2 n3 n4 n5 n6
  · intro idx hname hidx hb
    subst hname
    rw [handle_remove_note_at]
    simp only [hidx]
    rw [if_neg hb]
  · intro idx hname hidx hb
    subst hname
    rw [handle_update_interview_at]
    simp only [hidx]
    rw [if_neg hb]

/-- Witness for the amended C8 at an unknown tool name with empty
parameters. -/
theorem dispatcher_never_raises_amended_witness :
    (∃ r s', handle_tool_call "no_such_tool" [] "t" sEmpty = some (r, s')) ∧
    (isKnownTool "no_such_tool" = false →
      handle_tool_call "no_such_tool" [] "t" sEmpty = some ("Unknown tool", sEmpty)) ∧
    (∀ idx : Int, "no_such_tool" = "remove_note" →
      getIntParam [] "note_index" = some idx →
      ¬ (0 ≤ idx ∧ idx < (sEmpty.notes.length : Int)) →
      handle_tool_call "no_such_tool" [] "t" sEmpty =
        some ("Invalid note index " ++ toString idx, sEmpty)) ∧
    (∀ idx : Int, "no_such_tool" = "update_interview_entry" →
      getIntParam [] "entry_index" = some idx →
      ¬ (0 ≤ idx ∧ idx < (sEmpty.interview.length : Int)) →
      handle_tool_call "no_such_tool" [] "t" sEmpty =
        some ("Invalid entry index " ++ toString idx, sEmpty)) :=
  dispatcher_never_raises_amended "no_such_tool" [] "t" sEmpty (by decide)
